import Mathlib

/-!
Verification of the HyperInfer rate-limiting, routing, configuration and
telemetry subsystems against their natural-language specification.

The Rust sources are shallowly embedded: machine integers become `Nat`
(with explicit `% 2^w` where overflow matters), Lua numbers in the Redis
scripts become `ℚ`, fallible code returns `Except`/`Option`, and the
Redis store becomes an explicit state value threaded through each
operation.  Each definition mirrors one Rust (or embedded Lua) item and
carries its source location.
-/

set_option autoImplicit false

namespace HyperInfer

/-! ## Core data model (crates/hyperinfer-core/src/types.rs) -/

/-- `Provider` enum (types.rs).  `Other` is the `#[serde(other)]` catch-all. -/
inductive Provider where
  | OpenAI
  | Anthropic
  | Other
deriving DecidableEq, Repr

/-- `Display for Provider` (types.rs): lowercase provider names. -/
def Provider.toStr : Provider → String
  | .OpenAI => "openai"
  | .Anthropic => "anthropic"
  | .Other => "other"

/-- `MessageRole` enum (types.rs). -/
inductive MessageRole where
  | System
  | User
  | Assistant
deriving DecidableEq, Repr

/-- `ChatMessage` (types.rs). -/
structure ChatMessage where
  role : MessageRole
  content : String
deriving DecidableEq, Repr

/-- `ChatRequest` (types.rs).  `temperature: Option<f64>` is carried as an
opaque rational payload: no claim computes with it. -/
structure ChatRequest where
  model : String
  messages : List ChatMessage
  temperature : Option ℚ
  max_tokens : Option Nat
deriving DecidableEq, Repr

/-- `Usage` (types.rs); both counters are `u32`. -/
structure Usage where
  input_tokens : Nat
  output_tokens : Nat
deriving DecidableEq, Repr

/-- `UsageRecord` (types.rs); token counts are `u32`, times are `u64`. -/
structure UsageRecord where
  key : String
  model : String
  input_tokens : Nat
  output_tokens : Nat
  response_time_ms : Nat
  timestamp : Nat
deriving DecidableEq, Repr

/-- `Choice` (types.rs). -/
structure Choice where
  index : Nat
  message : ChatMessage
  finish_reason : Option String
deriving DecidableEq, Repr

/-- `ChatResponse` (types.rs). -/
structure ChatResponse where
  id : String
  model : String
  choices : List Choice
  usage : Usage
deriving DecidableEq, Repr

/-- `RoutingRule` (types.rs). -/
structure RoutingRule where
  name : String
  priority : Nat
  fallback_models : List String
deriving DecidableEq, Repr

/-- `Quota` (types.rs). -/
structure Quota where
  max_requests_per_minute : Option Nat
  max_tokens_per_minute : Option Nat
  budget_cents : Option Nat
deriving DecidableEq, Repr

/-- `Config` (types.rs).  The Rust `HashMap` fields are modelled as
association lists with unique keys; `api_keys` carries the
`#[serde(skip_serializing, default)]` attribute in the source. -/
structure Config where
  api_keys : List (String × String)
  routing_rules : List RoutingRule
  quotas : List (String × Quota)
  model_aliases : List (String × String)
  default_provider : Option Provider
deriving DecidableEq, Repr

/-- `HyperInferError` (crates/hyperinfer-core/src/error.rs); foreign error
payloads are collapsed to their message strings. -/
inductive HyperInferError where
  | Config (msg : String)
  | RateLimit (msg : String)
  | Http (msg : String)
  | ApiError (status : Nat) (message : String)
  | Database (msg : String)
  | Redis (msg : String)
deriving DecidableEq, Repr

/-- `ChatRequest::validate` (types.rs): non-empty model, non-empty
messages; each failure is a `Config` error built from an
`InvalidInput` io error. -/
def ChatRequest.validate (r : ChatRequest) : Except HyperInferError Unit :=
  if r.model = "" then .error (.Config "model cannot be empty")
  else if r.messages = [] then .error (.Config "messages cannot be empty")
  else .ok ()

/-! ## JSON serialization of `Config` (serde derive)

`serde_json` output is modelled as a `Json` tree.  Struct serialization
follows field declaration order; `api_keys` is skipped because of its
`#[serde(skip_serializing)]` attribute; `HashMap`s become objects;
`Option` becomes `null` or the payload. -/

/-- A JSON value, as produced by `serde_json`. -/
inductive Json where
  | null
  | str (s : String)
  | num (n : Int)
  | bool (b : Bool)
  | arr (xs : List Json)
  | obj (fields : List (String × Json))

/-- Top-level member names of a JSON object. -/
def Json.topKeys : Json → List String
  | .obj fields => fields.map Prod.fst
  | _ => []

/-- `Option<u64>` serialization. -/
def optNatToJson : Option Nat → Json
  | none => .null
  | some n => .num n

/-- `Provider` serialization (`rename_all = "lowercase"`). -/
def providerToJson (p : Provider) : Json := .str p.toStr

/-- `Option<Provider>` serialization. -/
def optProviderToJson : Option Provider → Json
  | none => .null
  | some p => providerToJson p

/-- `RoutingRule` serialization. -/
def routingRuleToJson (r : RoutingRule) : Json :=
  .obj [("name", .str r.name),
        ("priority", .num r.priority),
        ("fallback_models", .arr (r.fallback_models.map Json.str))]

/-- `Quota` serialization. -/
def quotaToJson (q : Quota) : Json :=
  .obj [("max_requests_per_minute", optNatToJson q.max_requests_per_minute),
        ("max_tokens_per_minute", optNatToJson q.max_tokens_per_minute),
        ("budget_cents", optNatToJson q.budget_cents)]

/-- Serialization of `Config` as derived by serde (types.rs):
`api_keys` is **not** emitted (`skip_serializing`); the remaining fields
appear in declaration order. -/
def configToJson (c : Config) : Json :=
  .obj [("routing_rules", .arr (c.routing_rules.map routingRuleToJson)),
        ("quotas", .obj (c.quotas.map fun p => (p.1, quotaToJson p.2))),
        ("model_aliases", .obj (c.model_aliases.map fun p => (p.1, .str p.2))),
        ("default_provider", optProviderToJson c.default_provider)]

/-- `ConfigUpdate` (crates/hyperinfer-core/src/redis.rs). -/
structure ConfigUpdate where
  config : Config
deriving DecidableEq, Repr

/-- `ConfigUpdate` serialization. -/
def configUpdateToJson (u : ConfigUpdate) : Json :=
  .obj [("config", configToJson u.config)]

/-- `ConfigManager::publish_config_update` (redis.rs): the pair of
serialized values it writes — the JSON snapshot stored under the
`hyperinfer:config` key, and the `ConfigUpdate` payload published on the
`hyperinfer:config_updates` channel. -/
def publish_config_update (c : Config) : Json × Json :=
  (configToJson c, configUpdateToJson ⟨c⟩)

/-- C1: every serialized form written by `publish_config_update` — the
snapshot JSON and the pub/sub `ConfigUpdate` payload — has no
`api_keys` member (neither at the top level of the snapshot nor inside
the payload's `config` object), and the serialization is independent of
the `api_keys` field: two configs differing only in `api_keys` produce
identical output. -/
theorem config_serialization_independent_of_api_keys
    (c : Config) (ks ks' : List (String × String)) :
    publish_config_update { c with api_keys := ks } =
      publish_config_update { c with api_keys := ks' }
    ∧ "api_keys" ∉ ((publish_config_update c).1).topKeys
    ∧ "api_keys" ∉ ((publish_config_update c).2).topKeys
    ∧ "api_keys" ∉ (configToJson c).topKeys := by
  refine ⟨rfl, ?_, ?_, ?_⟩ <;>
    simp [publish_config_update, configToJson, configUpdateToJson, Json.topKeys]

/-! ## Router (crates/hyperinfer-client/src/router.rs) -/

/-- Split a character list at the first `'/'` (Rust `str::find('/')`
followed by the two slices `target[..pos]` / `target[pos+1..]`). -/
def findSlash : List Char → Option (List Char × List Char)
  | [] => none
  | c :: cs =>
    if c = '/' then some ([], cs)
    else (findSlash cs).map fun p => (c :: p.1, p.2)

/-- `Router::parse_target_model` (router.rs): an alias target
`provider/model` yields the model together with the explicitly named
provider; an unknown provider name is an error; a target without a
slash is a bare model with no explicit provider.  Rust's (Unicode)
`to_lowercase` is modelled by `Char.toLower`, which agrees on the ASCII
provider names compared here. -/
def parse_target_model (target : String) : Except String (String × Option Provider) :=
  match findSlash target.toList with
  | some (pre, post) =>
    let provider_str := String.mk (pre.map Char.toLower)
    if provider_str = "openai" then .ok (String.mk post, some .OpenAI)
    else if provider_str = "anthropic" then .ok (String.mk post, some .Anthropic)
    else .error ("Unknown provider: '" ++ provider_str ++ "'")
  | none => .ok (target, none)

/-- `Router::infer_provider` (router.rs). -/
def infer_provider (model : String) : Option Provider :=
  if model.startsWith "gpt-" || model.startsWith "o1-" || model.startsWith "o3-" then
    some .OpenAI
  else if model.startsWith "claude-" then some .Anthropic
  else none

/-- `Router` (router.rs).  `model_aliases: HashMap<String, (String,
Option<Provider>)>` is an association list with unique keys. -/
structure Router where
  rules : List RoutingRule
  model_aliases : List (String × (String × Option Provider))
  default_provider : Option Provider

/-- `Router::new` (router.rs). -/
def Router.new (rules : List RoutingRule) : Router :=
  { rules := rules, model_aliases := [], default_provider := none }

/-- The closure passed to `filter_map` in `Router::with_aliases`:
keep a parsed alias, drop (and warn about) an invalid one.  The
`warn!` log line is a side effect outside this embedding. -/
def aliasEntry (p : String × String) : Option (String × (String × Option Provider)) :=
  match parse_target_model p.2 with
  | .ok mp => some (p.1, mp)
  | .error _ => none

/-- `Router::with_aliases` (router.rs): `filter_map` over the alias
map, keeping well-formed targets and dropping invalid ones. -/
def Router.with_aliases (r : Router) (aliases : List (String × String)) : Router :=
  { r with model_aliases := aliases.filterMap aliasEntry }

/-- `Router::with_default_provider` (router.rs). -/
def Router.with_default_provider (r : Router) (p : Option Provider) : Router :=
  { r with default_provider := p }

/-- `Router::resolve_provider` (router.rs): explicit provider wins,
then inference from the model string, then the default provider. -/
def Router.resolve_provider (r : Router) (explicit : Option Provider) (model : String) :
    Option Provider :=
  match explicit with
  | some p => some p
  | none =>
    match infer_provider model with
    | some p => some p
    | none => r.default_provider

/-- `Router::resolve` (router.rs).  The `_config` parameter is unused
in the source and kept for fidelity. -/
def Router.resolve (r : Router) (model : String) (_config : Config) :
    Option (String × Provider) :=
  match r.model_aliases.lookup model with
  | some (target_model, explicit) =>
    match r.resolve_provider explicit target_model with
    | some p => some (target_model, p)
    | none => none
  | none =>
    match r.resolve_provider none model with
    | some p => some (model, p)
    | none => none

/-- A successful `lookup` result is a member of the list. -/
theorem lookup_mem_of_eq_some {β : Type} (l : List (String × β)) (k : String) (v : β)
    (h : l.lookup k = some v) : (k, v) ∈ l := by
  induction l with
  | nil => simp [List.lookup] at h
  | cons hd tl ih =>
    rcases hd with ⟨a, b⟩
    by_cases hk : k = a
    · subst hk
      simp [List.lookup] at h
      simp [h]
    · have hne : (k == a) = false := beq_false_of_ne hk
      simp [List.lookup, hne] at h
      exact List.mem_cons_of_mem _ (ih h)

/-- If `lookup` finds the alias target and the target parses, the
filtered alias map still maps the alias to the parsed value (entries
before the hit have other keys, so dropping or keeping them cannot
shadow it). -/
theorem lookup_filterMap_aliasEntry (aliases : List (String × String))
    (k target : String) (v : String × Option Provider)
    (hlk : aliases.lookup k = some target)
    (hok : parse_target_model target = .ok v) :
    (aliases.filterMap aliasEntry).lookup k = some v := by
  induction aliases with
  | nil => simp [List.lookup] at hlk
  | cons hd tl ih =>
    rcases hd with ⟨a, t⟩
    by_cases hk : k = a
    · subst hk
      simp [List.lookup] at hlk
      subst hlk
      simp [List.filterMap_cons, aliasEntry, hok, List.lookup]
    · have hne : (k == a) = false := beq_false_of_ne hk
      simp [List.lookup, hne] at hlk
      have htl := ih hlk
      cases hcase : aliasEntry (a, t) with
      | none => simpa [List.filterMap_cons, hcase] using htl
      | some w =>
        have hw : w.1 = a := by
          unfold aliasEntry at hcase
          cases hp : parse_target_model t <;> simp [hp] at hcase
          rw [← hcase]
        simp [List.filterMap_cons, hcase, List.lookup, hw, hne]
        exact htl

set_option maxHeartbeats 1000000 in
/-- C5: an alias whose target carries an explicit, known provider
resolves to the target model paired with that provider, regardless of
what inference would say about the alias name or the target model and
regardless of the default provider. -/
theorem resolve_alias_explicit_override
    (rules : List RoutingRule) (aliases : List (String × String))
    (defp : Option Provider) (cfg : Config)
    (name target m : String) (p : Provider)
    (hlk : aliases.lookup name = some target)
    (hp : parse_target_model target = .ok (m, some p)) :
    (((Router.new rules).with_aliases aliases).with_default_provider defp).resolve
      name cfg = some (m, p) := by
  have h := lookup_filterMap_aliasEntry aliases name target (m, some p) hlk hp
  simp only [Router.resolve, Router.with_default_provider, Router.with_aliases, Router.new]
  rw [h]
  rfl

set_option maxHeartbeats 1000000 in
/-- Witness for C5: the literal scenario from the spec — aliases
`{"gpt-custom": "anthropic/claude-3"}` resolve `gpt-custom` to
`("claude-3", Anthropic)`. -/
theorem resolve_alias_explicit_override_witness :
    (((Router.new []).with_aliases [("gpt-custom", "anthropic/claude-3")]).with_default_provider
      none).resolve "gpt-custom"
      ⟨[], [], [], [], none⟩ = some ("claude-3", Provider.Anthropic) :=
  resolve_alias_explicit_override [] [("gpt-custom", "anthropic/claude-3")] none
    ⟨[], [], [], [], none⟩ "gpt-custom" "anthropic/claude-3" "claude-3" .Anthropic
    (by rfl) (by rfl)

/-- With pairwise-distinct keys, membership determines the value. -/
theorem nodupkeys_mem_unique {β : Type} (l : List (String × β))
    (hnd : (l.map Prod.fst).Nodup) (a : String) (x y : β)
    (hx : (a, x) ∈ l) (hy : (a, y) ∈ l) : x = y := by
  induction l with
  | nil => simp at hx
  | cons hd tl ih =>
    rcases hd with ⟨b, c⟩
    simp only [List.map_cons, List.nodup_cons] at hnd
    rcases List.mem_cons.mp hx with h1 | h1 <;> rcases List.mem_cons.mp hy with h2 | h2
    · rw [Prod.mk.injEq] at h1 h2
      rw [h1.2, h2.2]
    · exfalso
      rw [Prod.mk.injEq] at h1
      exact hnd.1 (h1.1 ▸ (List.mem_map.mpr ⟨(a, y), h2, rfl⟩))
    · exfalso
      rw [Prod.mk.injEq] at h2
      exact hnd.1 (h2.1 ▸ (List.mem_map.mpr ⟨(a, x), h1, rfl⟩))
    · exact ih hnd.2 h1 h2

/-- A key with no entry at all looks up to `none`. -/
theorem lookup_eq_none_of_forall {β : Type} (l : List (String × β)) (k : String)
    (h : ∀ v, (k, v) ∉ l) : l.lookup k = none := by
  induction l with
  | nil => simp [List.lookup]
  | cons hd tl ih =>
    rcases hd with ⟨a, b⟩
    have hk : k ≠ a := by
      intro he
      exact h b (by simp [he])
    have : (k == a) = false := beq_false_of_ne hk
    simp only [List.lookup, this]
    exact ih fun v hv => h v (List.mem_cons_of_mem _ hv)

/-- With pairwise-distinct keys, a member is found by `lookup`. -/
theorem lookup_of_mem_nodupkeys {β : Type} (l : List (String × β))
    (hnd : (l.map Prod.fst).Nodup) (a : String) (x : β)
    (h : (a, x) ∈ l) : l.lookup a = some x := by
  induction l with
  | nil => simp at h
  | cons hd tl ih =>
    rcases hd with ⟨b, c⟩
    simp only [List.map_cons, List.nodup_cons] at hnd
    rcases List.mem_cons.mp h with h1 | h1
    · rw [Prod.mk.injEq] at h1
      simp [List.lookup, h1.1, h1.2]
    · have hk : a ≠ b := by
        intro he
        exact hnd.1 (he ▸ (List.mem_map.mpr ⟨(a, x), h1, rfl⟩))
      have : (a == b) = false := beq_false_of_ne hk
      simp only [List.lookup, this]
      exact ih hnd.2 h1

/-- The parsed-and-kept shape of a filtered alias entry. -/
theorem aliasEntry_eq_some (p : String × String) (a : String)
    (v : String × Option Provider) (h : aliasEntry p = some (a, v)) :
    p.1 = a ∧ parse_target_model p.2 = .ok v := by
  unfold aliasEntry at h
  cases hp : parse_target_model p.2 with
  | error e => rw [hp] at h; exact absurd h (by simp)
  | ok mp =>
    rw [hp] at h
    simp only [Option.some.injEq, Prod.mk.injEq] at h
    exact ⟨h.1, by rw [h.2]⟩

/-- C6: loading a batch of aliases through `with_aliases` keeps exactly
the well-formed ones — an alias whose target names an unknown provider
is dropped (with a warning; the load itself still succeeds), every
alias whose target parses survives with its parsed value, nothing else
appears, and a surviving alias with an explicit provider resolves. -/
theorem with_aliases_keeps_wellformed (rules : List RoutingRule)
    (aliases : List (String × String))
    (hnd : (aliases.map Prod.fst).Nodup) :
    (∀ a t e, (a, t) ∈ aliases → parse_target_model t = .error e →
      ((Router.new rules).with_aliases aliases).model_aliases.lookup a = none)
    ∧ (∀ a t v, (a, t) ∈ aliases → parse_target_model t = .ok v →
      ((Router.new rules).with_aliases aliases).model_aliases.lookup a = some v)
    ∧ (∀ a v, ((Router.new rules).with_aliases aliases).model_aliases.lookup a = some v →
      ∃ t, (a, t) ∈ aliases ∧ parse_target_model t = .ok v)
    ∧ (∀ a t m p cfg, (a, t) ∈ aliases → parse_target_model t = .ok (m, some p) →
      ((Router.new rules).with_aliases aliases).resolve a cfg = some (m, p)) := by
  have hma : ((Router.new rules).with_aliases aliases).model_aliases
      = aliases.filterMap aliasEntry := rfl
  refine ⟨?_, ?_, ?_, ?_⟩
  · intro a t e hmem herr
    rw [hma]
    apply lookup_eq_none_of_forall
    intro v hv
    rcases List.mem_filterMap.mp hv with ⟨p, hp, hpe⟩
    rcases aliasEntry_eq_some p a v hpe with ⟨hp1, hp2⟩
    have hpt : (a, p.2) ∈ aliases := by
      rcases p with ⟨p1, p2⟩
      have hp1e : p1 = a := hp1
      subst hp1e
      exact hp
    have := nodupkeys_mem_unique aliases hnd a t p.2 hmem hpt
    rw [← this] at hp2
    rw [herr] at hp2
    exact absurd hp2 (by simp)
  · intro a t v hmem hok
    rw [hma]
    exact lookup_filterMap_aliasEntry aliases a t v
      (lookup_of_mem_nodupkeys aliases hnd a t hmem) hok
  · intro a v hlk
    rw [hma] at hlk
    rcases List.mem_filterMap.mp (lookup_mem_of_eq_some _ a v hlk) with ⟨p, hp, hpe⟩
    rcases aliasEntry_eq_some p a v hpe with ⟨hp1, hp2⟩
    refine ⟨p.2, ?_, hp2⟩
    rcases p with ⟨p1, p2⟩
    have hp1e : p1 = a := hp1
    subst hp1e
    exact hp
  · intro a t m p cfg hmem hok
    have h := lookup_filterMap_aliasEntry aliases a t (m, some p)
      (lookup_of_mem_nodupkeys aliases hnd a t hmem) hok
    simp only [Router.resolve, Router.with_aliases, Router.new]
    rw [h]
    rfl

set_option maxHeartbeats 1000000 in
/-- Witness for C6: the spec's literal batch `{"a": "openai/gpt-4",
"b": "unknown/x"}`: `b` is dropped, `a` survives and resolves to
`("gpt-4", OpenAI)`. -/
theorem with_aliases_keeps_wellformed_witness :
    ((Router.new []).with_aliases
      [("a", "openai/gpt-4"), ("b", "unknown/x")]).model_aliases.lookup "b" = none
    ∧ ((Router.new []).with_aliases
      [("a", "openai/gpt-4"), ("b", "unknown/x")]).model_aliases.lookup "a"
        = some ("gpt-4", some Provider.OpenAI)
    ∧ ((Router.new []).with_aliases
      [("a", "openai/gpt-4"), ("b", "unknown/x")]).resolve "a" ⟨[], [], [], [], none⟩
        = some ("gpt-4", Provider.OpenAI) :=
  ⟨(with_aliases_keeps_wellformed [] [("a", "openai/gpt-4"), ("b", "unknown/x")]
      (by decide)).1 "b" "unknown/x" "Unknown provider: 'unknown'" (by decide) (by rfl),
   (with_aliases_keeps_wellformed [] [("a", "openai/gpt-4"), ("b", "unknown/x")]
      (by decide)).2.1 "a" "openai/gpt-4" ("gpt-4", some Provider.OpenAI)
      (by decide) (by rfl),
   (with_aliases_keeps_wellformed [] [("a", "openai/gpt-4"), ("b", "unknown/x")]
      (by decide)).2.2.2 "a" "openai/gpt-4" "gpt-4" Provider.OpenAI
      ⟨[], [], [], [], none⟩ (by decide) (by rfl)⟩

/-! ## Rate limiting (crates/hyperinfer-core/src/rate_limiting.rs)

The two Lua scripts run atomically inside Redis; each is embedded as a
pure function from the store contents to the script's reply plus the
updated store.  Lua numbers are modelled as `ℚ` (the concrete values in
the claims stay exact in double precision, and all theorems about the
GCRA script assume `rate ≠ 0`, matching every in-repo caller; Lua's
IEEE behaviour at `rate = 0` — an infinite emission interval — is not
reproduced by `ℚ`'s total division).  The two script families use the
disjoint key prefixes `hyperinfer:ratelimit:rpm:` and
`hyperinfer:ratelimit:tpm:`, so the store is split into one namespace
per value shape. -/

/-- The telemetry stream entry shape: XADD field/value pairs. -/
abbrev StreamEntry : Type := List (String × String)

/-- The Redis state visible to the embedded operations: the RPM
counters, the GCRA theoretical-arrival-time keys (value paired with the
TTL in seconds set by the script), the cumulative usage counters, and
the telemetry stream. -/
structure RedisState where
  rpm : String → Option Nat
  tpm : String → Option (ℚ × ℤ)
  usageTokens : String → Option Nat
  usageRequests : String → Option Nat
  stream : List StreamEntry

/-- A Redis store with no keys. -/
def RedisState.empty : RedisState :=
  ⟨fun _ => none, fun _ => none, fun _ => none, fun _ => none, []⟩

/-- `RPM_SCRIPT` (rate_limiting.rs lines 37–52): `INCR` the counter,
set the 60 s expiry on first increment (expiry never fires inside the
single window all claims live in, so it is not carried in the state),
deny with `{0, 0, ttl}` once the counter exceeds the limit, else allow
with `{1, limit - current, 0}`.  The reply is the `(allowed,
remaining)` prefix actually read by the callers. -/
def rpmScript (store : String → Option Nat) (key : String) (limit : Nat) :
    (Nat × Nat) × (String → Option Nat) :=
  let current := (store key).getD 0 + 1
  let store' := fun k => if k = key then some current else store k
  if current > limit then ((0, 0), store')
  else ((1, limit - current), store')

/-- The stored theoretical arrival time, defaulting to `now` when the
key is absent (`GET` then `if not tat then tat = now`). -/
def storedTat (store : String → Option (ℚ × ℤ)) (key : String) (now : ℚ) : ℚ :=
  match store key with
  | none => now
  | some (t, _) => t

/-- `GCRA_SCRIPT` (rate_limiting.rs lines 10–35), verbatim over `ℚ`:
`emission_interval = capacity / rate`, `new_tat = max(tat, now) + cost *
emission_interval`, `allow_at = new_tat - capacity`; admit iff
`allow_at <= now`, storing `new_tat` with `EX math.ceil(capacity * 2)`
seconds, else deny with `retry_after = math.ceil(allow_at - now)`. -/
def gcraScript (store : String → Option (ℚ × ℤ)) (key : String)
    (rate capacity now cost : ℚ) : (Bool × ℤ) × (String → Option (ℚ × ℤ)) :=
  let emission_interval := capacity / rate
  let tat := storedTat store key now
  let new_tat := max tat now + cost * emission_interval
  let allow_at := new_tat - capacity
  if allow_at ≤ now then
    ((true, 0), fun k => if k = key then some (new_tat, ⌈capacity * 2⌉) else store k)
  else
    ((false, ⌈allow_at - now⌉), store)

/-- `RateLimiter` (rate_limiting.rs): the optional connection manager
is reduced to its presence, and `RateLimiter::new` fills in the default
limits `default_rpm = 60`, `default_tpm = 100000`. -/
structure RateLimiter where
  hasRedis : Bool
  default_rpm : Nat
  default_tpm : Nat

/-- `RateLimiter::new` with a reachable store (`redis_url = Some(..)`
and connection succeeded) or none. -/
def RateLimiter.new (hasRedis : Bool) : RateLimiter :=
  { hasRedis := hasRedis, default_rpm := 60, default_tpm := 100000 }

/-- Key formatting `hyperinfer:ratelimit:rpm:{key}`. -/
def rpmKeyFor (key : String) : String := "hyperinfer:ratelimit:rpm:" ++ key

/-- Key formatting `hyperinfer:ratelimit:tpm:{key}`. -/
def tpmKeyFor (key : String) : String := "hyperinfer:ratelimit:tpm:" ++ key

/-- `RateLimiter::is_allowed` (rate_limiting.rs lines 93–136): run the
RPM script with `default_rpm` and a 60 s window; if it denies, return
`false` immediately; otherwise run the GCRA script with `rate =
default_tpm / 60` (integer division), `capacity = default_tpm`, the
current epoch milliseconds `now`, and `cost = amount`.  Without a store
it always allows. -/
def RateLimiter.is_allowed (rl : RateLimiter) (st : RedisState) (key : String)
    (amount : Nat) (now : ℚ) : Bool × RedisState :=
  if rl.hasRedis then
    let r := rpmScript st.rpm (rpmKeyFor key) rl.default_rpm
    let st1 : RedisState := { st with rpm := r.2 }
    if r.1.1 = 0 then (false, st1)
    else
      let rate : Nat := rl.default_tpm / 60
      let g := gcraScript st1.tpm (tpmKeyFor key) (rate : ℚ) (rl.default_tpm : ℚ)
        now (amount : ℚ)
      (g.1.1, { st1 with tpm := g.2 })
  else (true, st)

/-- `RateLimiter::record_usage` (rate_limiting.rs): atomic `INCRBY` of
the cumulative token counter and `INCR` of the request counter. -/
def RateLimiter.record_usage (rl : RateLimiter) (st : RedisState) (key : String)
    (tokens_used : Nat) : RedisState :=
  if rl.hasRedis then
    let tk := "hyperinfer:usage:tokens:" ++ key
    let rk := "hyperinfer:usage:requests:" ++ key
    { st with
      usageTokens := fun k => if k = tk then some ((st.usageTokens tk).getD 0 + tokens_used)
        else st.usageTokens k,
      usageRequests := fun k => if k = rk then some ((st.usageRequests rk).getD 0 + 1)
        else st.usageRequests k }
  else st

/-- C2 counterexample: against the GCRA script with `capacity = 1000`,
`rate = 100`, a fresh key at `t = 0` **denies** a cost of 500 (with
`retry_after = 4000`), contradicting the claimed admission: the script
compares `cost * (capacity / rate)` against `capacity`, so a fresh key
only admits costs up to `rate`. -/
theorem gcra_first_cost_denied_counterexample :
    (gcraScript (fun _ => none) "k" 100 1000 0 500).1 = (false, 4000) := by
  norm_num [gcraScript, storedTat]

/-- C2 as the script actually behaves: at `t = 0` with `capacity =
1000`, `rate = 100`, the three costs 500, 400, 200 submitted in
sequence are all denied, with `retry_after` 4000, 3000 and 1000 ms
respectively (a denial stores nothing, so each call sees a fresh
key). -/
theorem gcra_burst_sequence_all_denied :
    (gcraScript (fun _ => none) "k" 100 1000 0 500).1 = (false, 4000)
    ∧ (gcraScript (gcraScript (fun _ => none) "k" 100 1000 0 500).2
        "k" 100 1000 0 400).1 = (false, 3000)
    ∧ (gcraScript (gcraScript (gcraScript (fun _ => none) "k" 100 1000 0 500).2
        "k" 100 1000 0 400).2 "k" 100 1000 0 200).1 = (false, 1000) := by
  refine ⟨?_, ?_, ?_⟩ <;> norm_num [gcraScript, storedTat]

/-- C4 counterexample: at `capacity = 1000` (`rate = 100`, `cost =
100`, fresh key, `t = 0`) the script admits and stores the new
theoretical arrival time with `EX 2000` seconds — not the claimed
`ceil(capacity * 2 / 1000) = 2` seconds. -/
theorem gcra_ttl_counterexample :
    (gcraScript (fun _ => none) "k" 100 1000 0 100).2 "k" = some (1000, 2000)
    ∧ (2000 : ℤ) ≠ ⌈((1000 : ℚ) * 2) / 1000⌉ := by
  constructor
  · norm_num [gcraScript, storedTat]
  · norm_num

/-- C4 amended: whenever the GCRA script admits, it stores the new
theoretical arrival time under the key with an expiry of
`ceil(capacity * 2)` seconds (the script passes `capacity * 2` to `EX`
without the millisecond-to-second conversion the claim states). -/
theorem gcra_admit_stores_tat_with_ttl
    (store : String → Option (ℚ × ℤ)) (key : String) (rate capacity now cost : ℚ)
    (h : (gcraScript store key rate capacity now cost).1.1 = true) :
    (gcraScript store key rate capacity now cost).2 key =
      some (max (storedTat store key now) now + cost * (capacity / rate),
        ⌈capacity * 2⌉) := by
  unfold gcraScript at h ⊢
  by_cases hc : max (storedTat store key now) now + cost * (capacity / rate) - capacity ≤ now
  · simp [hc]
  · simp [hc] at h

/-- Witness for C4 amended: a fresh key admitting `cost = 100` at
`rate = 100`, `capacity = 1000`, `t = 0` stores `(1000, 2000)`. -/
theorem gcra_admit_stores_tat_with_ttl_witness :
    (gcraScript (fun _ => none) "k" 100 1000 0 100).2 "k" =
      some (max (storedTat (fun _ => none) "k" 0) 0 + 100 * ((1000 : ℚ) / 100),
        ⌈(1000 : ℚ) * 2⌉) :=
  gcra_admit_stores_tat_with_ttl (fun _ => none) "k" 100 1000 0 100
    (by norm_num [gcraScript, storedTat])

/-- C9: when the RPM script denies (the stored counter has already
reached the limit), `is_allowed` returns `false` without evaluating the
GCRA script: the TPM (and usage) state is returned unchanged, and only
the RPM counter has been incremented. -/
theorem is_allowed_rpm_denied_frame
    (rl : RateLimiter) (st : RedisState) (key : String) (amount : Nat) (now : ℚ)
    (hr : rl.hasRedis = true)
    (hd : rl.default_rpm < (st.rpm (rpmKeyFor key)).getD 0 + 1) :
    (rl.is_allowed st key amount now).1 = false
    ∧ (rl.is_allowed st key amount now).2.tpm = st.tpm
    ∧ (rl.is_allowed st key amount now).2.usageTokens = st.usageTokens
    ∧ (rl.is_allowed st key amount now).2.usageRequests = st.usageRequests := by
  unfold RateLimiter.is_allowed rpmScript
  simp [hr, hd]

/-- Witness for C9: a limiter with limit 0 denies the first request for
`"k"` and leaves the TPM state untouched. -/
theorem is_allowed_rpm_denied_frame_witness :
    ((RateLimiter.mk true 0 100000).is_allowed RedisState.empty "k" 1 0).1 = false
    ∧ ((RateLimiter.mk true 0 100000).is_allowed RedisState.empty "k" 1 0).2.tpm
        = RedisState.empty.tpm
    ∧ ((RateLimiter.mk true 0 100000).is_allowed RedisState.empty "k" 1 0).2.usageTokens
        = RedisState.empty.usageTokens
    ∧ ((RateLimiter.mk true 0 100000).is_allowed RedisState.empty "k" 1 0).2.usageRequests
        = RedisState.empty.usageRequests :=
  is_allowed_rpm_denied_frame (RateLimiter.mk true 0 100000) RedisState.empty "k" 1 0
    rfl (by simp [RedisState.empty])

/-- `n` sequential calls to `is_allowed(key, 1)` at a fixed instant
`now`, threading the store; returns the list of boolean outcomes in
call order together with the final store. -/
def RateLimiter.isAllowedRun (rl : RateLimiter) (key : String) (now : ℚ) :
    Nat → RedisState → List Bool × RedisState
  | 0, st => ([], st)
  | n + 1, st =>
    let r := rl.is_allowed st key 1 now
    let rest := rl.isAllowedRun key now n r.2
    (r.1 :: rest.1, rest.2)

/-- The GCRA emission interval for the parameters `is_allowed` passes:
`capacity / rate` with `capacity = T` and `rate = T / 60` (integer
division, as in the Rust caller). -/
def emissionOf (T : Nat) : ℚ := (T : ℚ) / ((T / 60 : Nat) : ℚ)

/-- Invariant for C3: starting from a store whose RPM counter records
`k` earlier calls and whose TPM key records the `min k L` admitted ones,
call `k + j` of a run returns `true` exactly when `k + j ≤ L`
(`j ≥ 1`), provided the RPM limit `L` never lets more calls through
than the GCRA rate admits at one instant (`L ≤ T / 60`). -/
theorem isAllowedRun_results (key : String) (L T : Nat) (now : ℚ)
    (hLT : L ≤ T / 60) :
    ∀ (m k : Nat) (st : RedisState),
    st.rpm (rpmKeyFor key) = (if k = 0 then none else some k) →
    st.tpm (tpmKeyFor key) =
      (if min k L = 0 then none
       else some (now + ((min k L : ℕ) : ℚ) * emissionOf T, ⌈(T : ℚ) * 2⌉)) →
    ((RateLimiter.mk true L T).isAllowedRun key now m st).1 =
      (List.range m).map (fun i => decide (k + i + 1 ≤ L)) := by
  intro m
  induction m with
  | zero => intro k st _ _; simp [RateLimiter.isAllowedRun]
  | succ m ih =>
    intro k st hrpm htpm
    have hcur : (st.rpm (rpmKeyFor key)).getD 0 + 1 = k + 1 := by
      rcases Nat.eq_zero_or_pos k with hk | hk
      · simp [hrpm, hk]
      · simp [hrpm, Nat.pos_iff_ne_zero.mp hk]
    by_cases hadm : k + 1 ≤ L
    case pos =>
      have hrpmres : rpmScript st.rpm (rpmKeyFor key) L =
          ((1, L - (k + 1)), fun s => if s = rpmKeyFor key then some (k + 1)
            else st.rpm s) := by
        unfold rpmScript
        simp [hcur, Nat.not_lt.mpr hadm]
      have hL1 : 1 ≤ L := le_trans (Nat.le_add_left 1 k) hadm
      have hrate1 : 1 ≤ T / 60 := le_trans hL1 hLT
      have hrate0 : ((T / 60 : Nat) : ℚ) ≠ 0 := by
        exact_mod_cast Nat.pos_iff_ne_zero.mp hrate1
      have hemis_nonneg : 0 ≤ emissionOf T := by
        unfold emissionOf
        positivity
      have htat : storedTat st.tpm (tpmKeyFor key) now =
          now + ((min k L : ℕ) : ℚ) * emissionOf T := by
        unfold storedTat
        rcases Nat.eq_zero_or_pos k with hk | hk
        · simp [htpm, hk]
        · have hm : min k L ≠ 0 := by omega
          simp [htpm, hm]
      have hmink : ((min k L : ℕ) : ℚ) = (k : ℚ) := by
        have h := Nat.min_eq_left (show k ≤ L by omega)
        exact_mod_cast congrArg (Nat.cast : ℕ → ℚ) h
      have hnewtat : max (storedTat st.tpm (tpmKeyFor key) now) now + 1 * emissionOf T =
          now + ((k : ℚ) + 1) * emissionOf T := by
        rw [htat, hmink]
        have h1 : now ≤ now + (k : ℚ) * emissionOf T := by
          have : 0 ≤ (k : ℚ) * emissionOf T := by positivity
          linarith
        rw [max_eq_left h1]
        ring
      have hadmq : ((k : ℚ) + 1) * emissionOf T ≤ (T : ℚ) := by
        unfold emissionOf
        have hk1 : ((k : ℚ) + 1) ≤ ((T / 60 : Nat) : ℚ) := by
          exact_mod_cast le_trans hadm hLT
        calc ((k : ℚ) + 1) * ((T : ℚ) / ((T / 60 : Nat) : ℚ))
            ≤ ((T / 60 : Nat) : ℚ) * ((T : ℚ) / ((T / 60 : Nat) : ℚ)) := by
              apply mul_le_mul_of_nonneg_right hk1
              positivity
          _ = (T : ℚ) := by
              field_simp
      have hgcra : gcraScript st.tpm (tpmKeyFor key) ((T / 60 : Nat) : ℚ) (T : ℚ) now 1 =
          ((true, 0), fun s => if s = tpmKeyFor key then
            some (now + ((k : ℚ) + 1) * emissionOf T, ⌈(T : ℚ) * 2⌉)
            else st.tpm s) := by
        simp only [gcraScript]
        rw [show (T : ℚ) / ((T / 60 : Nat) : ℚ) = emissionOf T from rfl]
        rw [hnewtat]
        have hcond : now + ((k : ℚ) + 1) * emissionOf T - (T : ℚ) ≤ now := by
          linarith
        rw [if_pos hcond]
      have hstep : (RateLimiter.mk true L T).is_allowed st key 1 now =
          (true, { st with
            rpm := fun s => if s = rpmKeyFor key then some (k + 1) else st.rpm s,
            tpm := fun s => if s = tpmKeyFor key then
              some (now + ((k : ℚ) + 1) * emissionOf T, ⌈(T : ℚ) * 2⌉)
              else st.tpm s }) := by
        simp [RateLimiter.is_allowed, hrpmres, hgcra]
      have hres := ih (k + 1)
        { st with
          rpm := fun s => if s = rpmKeyFor key then some (k + 1) else st.rpm s,
          tpm := fun s => if s = tpmKeyFor key then
            some (now + ((k : ℚ) + 1) * emissionOf T, ⌈(T : ℚ) * 2⌉)
            else st.tpm s }
        (by simp)
        (by rw [Nat.min_eq_left hadm]; simp)
      simp only [RateLimiter.isAllowedRun]
      rw [hstep]
      simp only []
      rw [hres]
      rw [List.range_succ_eq_map, List.map_cons, List.map_map]
      refine congrArg₂ List.cons ?_ ?_
      · simp [hadm]
      · apply List.map_congr_left
        intro i _
        simp only [Function.comp]
        apply decide_eq_decide.mpr
        omega
    case neg =>
      have hrpmres : rpmScript st.rpm (rpmKeyFor key) L =
          ((0, 0), fun s => if s = rpmKeyFor key then some (k + 1)
            else st.rpm s) := by
        unfold rpmScript
        simp [hcur, Nat.lt_of_not_le hadm]
      have hstep : (RateLimiter.mk true L T).is_allowed st key 1 now =
          (false, { st with
            rpm := fun s => if s = rpmKeyFor key then some (k + 1) else st.rpm s }) := by
        simp only [RateLimiter.is_allowed]
        simp only [hrpmres]
        norm_num
      have hLk : L ≤ k := by omega
      have hres := ih (k + 1)
        { st with
          rpm := fun s => if s = rpmKeyFor key then some (k + 1) else st.rpm s }
        (by simp)
        (by
          have h1 : min (k + 1) L = L := Nat.min_eq_right (by omega)
          have h2 : min k L = L := Nat.min_eq_right hLk
          rw [h1]
          rw [h2] at htpm
          simpa using htpm)
      simp only [RateLimiter.isAllowedRun]
      rw [hstep]
      simp only []
      rw [hres]
      rw [List.range_succ_eq_map, List.map_cons, List.map_map]
      refine congrArg₂ List.cons ?_ ?_
      · simp [hadm]
      · apply List.map_congr_left
        intro i _
        simp only [Function.comp]
        apply decide_eq_decide.mpr
        omega

/-- Counting the `true`s among `[decide (1 ≤ L), …, decide (n ≤ L)]`. -/
theorem count_true_range_map (L : Nat) :
    ∀ n, (((List.range n).map (fun i => decide (i + 1 ≤ L))).count true) = min n L := by
  intro n
  induction n with
  | zero => simp
  | succ n ih =>
    rw [List.range_succ, List.map_append, List.count_append, ih]
    by_cases h : n + 1 ≤ L
    · simp [h]
      omega
    · simp [h]
      omega

/-- C3: for every key and RPM limit `L`, `n` sequential `is_allowed(key, 1)`
calls within one 60-second window, starting from an absent RPM counter
and fresh TPM state, with the TPM check not binding (`L ≤ T / 60`, so
the GCRA admits every RPM-admitted call), return `true` exactly
`min n L` times — namely on calls `1..min n L` — and calls `L+1`
through `n` all return `false`. -/
theorem is_allowed_fresh_window (key : String) (L T n : Nat) (now : ℚ) (st : RedisState)
    (hrpm : st.rpm (rpmKeyFor key) = none)
    (htpm : st.tpm (tpmKeyFor key) = none)
    (hLT : L ≤ T / 60) :
    ((RateLimiter.mk true L T).isAllowedRun key now n st).1 =
      (List.range n).map (fun i => decide (i + 1 ≤ L))
    ∧ (((RateLimiter.mk true L T).isAllowedRun key now n st).1.count true = min n L)
    ∧ ∀ i, L ≤ i → i < n →
        ((RateLimiter.mk true L T).isAllowedRun key now n st).1.getD i true = false := by
  have h0 := isAllowedRun_results key L T now hLT n 0 st (by simpa using hrpm)
    (by simpa using htpm)
  have heq : ((RateLimiter.mk true L T).isAllowedRun key now n st).1 =
      (List.range n).map (fun i => decide (i + 1 ≤ L)) := by
    rw [h0]
    apply List.map_congr_left
    intro i _
    apply decide_eq_decide.mpr
    omega
  refine ⟨heq, ?_, ?_⟩
  · rw [heq, count_true_range_map]
  · intro i hL hn
    rw [heq, List.getD_eq_getElem?_getD, List.getElem?_map, List.getElem?_range hn]
    simp
    omega

/-- Witness for C3: limit 2, default TPM, four calls: `[true, true,
false, false]`, two admitted, calls 3 and 4 denied. -/
theorem is_allowed_fresh_window_witness :
    ((RateLimiter.mk true 2 100000).isAllowedRun "k" 0 4 RedisState.empty).1 =
      (List.range 4).map (fun i => decide (i + 1 ≤ 2))
    ∧ (((RateLimiter.mk true 2 100000).isAllowedRun "k" 0 4 RedisState.empty).1.count true
        = min 4 2)
    ∧ ∀ i, 2 ≤ i → i < 4 →
        ((RateLimiter.mk true 2 100000).isAllowedRun "k" 0 4 RedisState.empty).1.getD i true
          = false :=
  is_allowed_fresh_window "k" 2 100000 4 0 RedisState.empty rfl rfl (by norm_num)

/-! ## Telemetry producer (crates/hyperinfer-client/src/telemetry.rs) -/

/-- `Telemetry` (telemetry.rs): the optional Redis connection manager
reduced to its presence, plus the stream key. -/
structure Telemetry where
  manager : Option Unit
  stream_key : String

/-- `Telemetry::new` (telemetry.rs): URL parsing and connection
establishment are environment outcomes, passed in as the two booleans.
An unparsable URL or a failed connection is logged (`warn!`) and leaves
`manager = None`; the constructor itself always returns `Ok`. -/
def Telemetry.new (openOk connectOk : Bool) : Except String Telemetry :=
  .ok { manager := if openOk && connectOk then some () else none,
        stream_key := "hyperinfer:telemetry" }

/-- `Telemetry::record_with_tokens` (telemetry.rs): with a connection,
spawn an `XADD` of the six field/value pairs onto the stream and return
`Ok(())`; without one, log at debug level and return `Ok(())` leaving
the stream untouched.  `timestamp` is the ambient epoch-millisecond
clock reading the method takes itself. -/
def Telemetry.record_with_tokens (t : Telemetry) (st : RedisState) (key model : String)
    (input_tokens output_tokens response_time_ms timestamp : Nat) :
    Except String Unit × RedisState :=
  match t.manager with
  | some _ =>
    (.ok (), { st with stream := st.stream ++
      [[("key", key), ("model", model),
        ("input_tokens", toString input_tokens),
        ("output_tokens", toString output_tokens),
        ("response_time_ms", toString response_time_ms),
        ("timestamp", toString timestamp)]] })
  | none => (.ok (), st)

/-- `Telemetry::record` (telemetry.rs): `record_with_tokens` with zero
token counts. -/
def Telemetry.record (t : Telemetry) (st : RedisState) (key model : String)
    (response_time_ms timestamp : Nat) : Except String Unit × RedisState :=
  t.record_with_tokens st key model 0 0 response_time_ms timestamp

/-- C10: `Telemetry::new` never returns an error — for every outcome of
URL parsing and connection establishment it returns `Ok` — and in the
failure cases the producer holds no connection, and every subsequent
`record` / `record_with_tokens` call on it returns `Ok(())` without
appending anything to the stream. -/
theorem telemetry_new_never_fails_and_record_noop
    (openOk connectOk : Bool) (st : RedisState) (key model : String)
    (i o rt ts : Nat) :
    (∃ t, Telemetry.new openOk connectOk = .ok t)
    ∧ ((openOk && connectOk) = false →
        ∃ t, Telemetry.new openOk connectOk = .ok t
          ∧ t.manager = none
          ∧ t.record_with_tokens st key model i o rt ts = (.ok (), st)
          ∧ t.record st key model rt ts = (.ok (), st)) := by
  constructor
  · exact ⟨_, rfl⟩
  · intro h
    refine ⟨_, rfl, ?_, ?_, ?_⟩ <;>
      simp [Telemetry.new, Telemetry.record, Telemetry.record_with_tokens, h]

/-- Witness for C10: an unparsable URL (`openOk = false`) yields a
connectionless producer whose `record` call is a no-op returning
`Ok`. -/
theorem telemetry_new_never_fails_and_record_noop_witness :
    (∃ t, Telemetry.new false true = .ok t)
    ∧ ((false && true) = false →
        ∃ t, Telemetry.new false true = .ok t
          ∧ t.manager = none
          ∧ t.record_with_tokens RedisState.empty "k" "gpt-4" 100 50 250 1700000000000
              = (.ok (), RedisState.empty)
          ∧ t.record RedisState.empty "k" "gpt-4" 250 1700000000000
              = (.ok (), RedisState.empty)) :=
  telemetry_new_never_fails_and_record_noop false true RedisState.empty "k" "gpt-4"
    100 50 250 1700000000000

/-! ## Request orchestration (crates/hyperinfer-client/src/lib.rs) -/

/-- The externally visible effects of one `chat` call, in order. -/
inductive ChatEffect where
  | providerCall (provider : Provider) (model : String)
  | telemetryRecord (key model : String)
  | usageRecord (key : String) (tokens : Nat)
deriving DecidableEq, Repr

/-- The provider dispatch and post-call bookkeeping of
`HyperInferClient::chat` steps 3–5 (lib.rs): call the provider, and on
success record telemetry (errors dropped) and the usage counters
(`input_tokens + output_tokens`, a `u32` addition, wrapping as Rust
release builds do), then return the response. -/
def chatDispatch (rl : RateLimiter) (tel : Telemetry)
    (http : Provider → String → Except HyperInferError ChatResponse)
    (st : RedisState) (elapsed timestamp : Nat) (key : String)
    (provider : Provider) (model : String) (api_key : String) :
    Except HyperInferError ChatResponse × RedisState × List ChatEffect :=
  match http provider api_key with
  | .error e => (.error e, st, [ChatEffect.providerCall provider model])
  | .ok response =>
    let st1 := (tel.record st key model elapsed timestamp).2
    let total := (response.usage.input_tokens + response.usage.output_tokens) % 2 ^ 32
    let st2 := rl.record_usage st1 key total
    (.ok response, st2,
      [ChatEffect.providerCall provider model,
       ChatEffect.telemetryRecord key model,
       ChatEffect.usageRecord key total])

/-- `HyperInferClient::chat` (lib.rs): validate, check the rate limit,
resolve the model through the router, look up the provider's API key,
dispatch; each rejection is terminal.  The HTTP caller is the oracle
`http`; `now`/`elapsed`/`timestamp` are the ambient clock readings. -/
def chat (router : Router) (config : Config) (rl : RateLimiter) (tel : Telemetry)
    (http : Provider → String → Except HyperInferError ChatResponse)
    (st : RedisState) (now : ℚ) (elapsed timestamp : Nat)
    (key : String) (req : ChatRequest) :
    Except HyperInferError ChatResponse × RedisState × List ChatEffect :=
  match req.validate with
  | .error e => (.error e, st, [])
  | .ok _ =>
    let a := rl.is_allowed st key 1 now
    if a.1 = false then (.error (.RateLimit "Rate limit exceeded"), a.2, [])
    else
      match router.resolve req.model config with
      | none =>
        (.error (.Config ("Unknown model: '" ++ req.model
          ++ "'. No routing rule or alias found.")), a.2, [])
      | some (model, provider) =>
        match config.api_keys.lookup provider.toStr with
        | none =>
          (.error (.Config "API key not found for provider"), a.2, [])
        | some api_key =>
          match provider with
          | .Other => (.error (.Config "Unsupported provider"), a.2, [])
          | .OpenAI => chatDispatch rl tel http a.2 elapsed timestamp key .OpenAI model api_key
          | .Anthropic =>
            chatDispatch rl tel http a.2 elapsed timestamp key .Anthropic model api_key

/-- C7: a `ChatRequest` with an empty model or an empty message list
fails validation and is terminal there: `chat` returns a config error,
the store is returned unchanged (no RPM counter increment, no TPM
advance, no usage-counter increment, no telemetry append), and no
effect — in particular no provider call — occurs. -/
theorem chat_invalid_request_terminal
    (router : Router) (config : Config) (rl : RateLimiter) (tel : Telemetry)
    (http : Provider → String → Except HyperInferError ChatResponse)
    (st : RedisState) (now : ℚ) (elapsed timestamp : Nat)
    (key : String) (req : ChatRequest)
    (h : req.model = "" ∨ req.messages = []) :
    ∃ msg, chat router config rl tel http st now elapsed timestamp key req
      = (.error (.Config msg), st, []) := by
  rcases h with h | h
  · exact ⟨"model cannot be empty", by simp [chat, ChatRequest.validate, h]⟩
  · by_cases hm : req.model = ""
    · exact ⟨"model cannot be empty", by simp [chat, ChatRequest.validate, hm]⟩
    · exact ⟨"messages cannot be empty", by simp [chat, ChatRequest.validate, hm, h]⟩

/-- Witness for C7: an empty request against a default client stack is
rejected as a config error with no state change and no effects. -/
theorem chat_invalid_request_terminal_witness :
    ∃ msg, chat (Router.new []) ⟨[], [], [], [], none⟩ (RateLimiter.new true)
      { manager := some (), stream_key := "hyperinfer:telemetry" }
      (fun _ _ => .error (.Http "unreachable"))
      RedisState.empty 0 5 1700000000000 "k" ⟨"", [], none, none⟩
      = (.error (.Config msg), RedisState.empty, []) :=
  chat_invalid_request_terminal (Router.new []) ⟨[], [], [], [], none⟩
    (RateLimiter.new true)
    { manager := some (), stream_key := "hyperinfer:telemetry" }
    (fun _ _ => .error (.Http "unreachable"))
    RedisState.empty 0 5 1700000000000 "k" ⟨"", [], none, none⟩ (.inl rfl)

/-! ## Telemetry consumer (crates/hyperinfer-core/src/telemetry_consumer.rs) -/

/-- The `HashMap` built by `parse_entry` from the stream entry's
field/value pairs (later duplicates overwrite earlier ones), read back
at one key: the last matching value. -/
def hmGet (fields : List (String × String)) (k : String) : Option String :=
  fields.foldl (fun acc p => if p.1 = k then some p.2 else acc) none

/-- Rust `s.trim().is_empty()`: all characters are whitespace.  Rust
trims by Unicode `White_Space`; `Char.isWhitespace` covers the ASCII
whitespace the telemetry fields carry. -/
def trimEmpty (s : String) : Bool := s.toList.all Char.isWhitespace

/-- Rust `str::parse::<uN>()`: an optional leading `'+'`, then one or
more ASCII digits, whose value must fit the type's range (`maxVal` =
`2^N - 1`); anything else is a parse error. -/
def parseUInt (maxVal : Nat) (s : String) : Option Nat :=
  let cs := s.toList
  let ds := match cs with
    | '+' :: rest => rest
    | _ => cs
  if ds = [] then none
  else if ds.all Char.isDigit then
    let v := ds.foldl (fun a c => a * 10 + (c.toNat - 48)) 0
    if v ≤ maxVal then some v else none
  else none

/-- `u32::MAX`. -/
def U32_MAX : Nat := 2 ^ 32 - 1

/-- `u64::MAX`. -/
def U64_MAX : Nat := 2 ^ 64 - 1

/-- `TelemetryConsumer::parse_entry` (telemetry_consumer.rs lines
319–345): fetch `key` and `model`, reject blank ones, then parse the
four numeric fields, building a `UsageRecord`; any missing or
malformed field yields `None`. -/
def parse_entry (fields : List (String × String)) : Option UsageRecord :=
  (hmGet fields "key").bind fun key =>
  (hmGet fields "model").bind fun model =>
  if trimEmpty key || trimEmpty model then none
  else
    (hmGet fields "input_tokens").bind fun s1 =>
    (parseUInt U32_MAX s1).bind fun input_tokens =>
    (hmGet fields "output_tokens").bind fun s2 =>
    (parseUInt U32_MAX s2).bind fun output_tokens =>
    (hmGet fields "response_time_ms").bind fun s3 =>
    (parseUInt U64_MAX s3).bind fun response_time_ms =>
    (hmGet fields "timestamp").bind fun s4 =>
    (parseUInt U64_MAX s4).bind fun timestamp =>
    some ⟨key, model, input_tokens, output_tokens, response_time_ms, timestamp⟩

/-- Spec-side rejection clause: the named field is missing, empty, or
whitespace-only. -/
def fieldBlank (fields : List (String × String)) (k : String) : Bool :=
  match hmGet fields k with
  | none => true
  | some v => trimEmpty v

/-- Spec-side rejection clause: the named numeric field is missing or
fails to parse within its range. -/
def fieldNumBad (fields : List (String × String)) (k : String) (maxVal : Nat) : Bool :=
  match hmGet fields k with
  | none => true
  | some v => (parseUInt maxVal v).isNone

/-- The rejection condition exactly as the claim states it. -/
def specRejects (fields : List (String × String)) : Bool :=
  fieldBlank fields "key" || fieldBlank fields "model"
  || fieldNumBad fields "input_tokens" U32_MAX
  || fieldNumBad fields "output_tokens" U32_MAX
  || fieldNumBad fields "response_time_ms" U64_MAX
  || fieldNumBad fields "timestamp" U64_MAX

/-- C8: `parse_entry` returns `None` exactly when `key` or `model` is
missing, empty or whitespace-only, or some numeric field is missing or
fails to parse within its range; on every other entry it returns `Some`
record whose string fields are the entry's values and whose numeric
fields are their parses. -/
theorem parse_entry_validation (fields : List (String × String)) :
    (parse_entry fields = none ↔ specRejects fields = true)
    ∧ (∀ r, parse_entry fields = some r →
        hmGet fields "key" = some r.key
        ∧ hmGet fields "model" = some r.model
        ∧ (∃ s, hmGet fields "input_tokens" = some s
            ∧ parseUInt U32_MAX s = some r.input_tokens)
        ∧ (∃ s, hmGet fields "output_tokens" = some s
            ∧ parseUInt U32_MAX s = some r.output_tokens)
        ∧ (∃ s, hmGet fields "response_time_ms" = some s
            ∧ parseUInt U64_MAX s = some r.response_time_ms)
        ∧ (∃ s, hmGet fields "timestamp" = some s
            ∧ parseUInt U64_MAX s = some r.timestamp)) := by
  unfold parse_entry specRejects fieldBlank fieldNumBad
  cases h1 : hmGet fields "key" <;> simp only [Option.some_bind, Option.none_bind]
  next => simp
  next key =>
  cases h2 : hmGet fields "model" <;> simp only [Option.some_bind, Option.none_bind]
  next => simp
  next model =>
  by_cases hb : (trimEmpty key || trimEmpty model) = true
  · rw [if_pos hb]
    refine ⟨?_, by simp⟩
    simp only [Bool.or_eq_true] at hb
    simp only [Bool.or_eq_true]
    simp
    tauto
  · rw [if_neg hb]
    have hbf : (trimEmpty key || trimEmpty model) = false := by
      revert hb
      cases trimEmpty key || trimEmpty model <;> simp
    rcases Bool.or_eq_false_iff.mp hbf with ⟨hk, hm⟩
    simp only [hk, hm, Bool.false_or]
    cases h3 : hmGet fields "input_tokens" <;> simp only [Option.some_bind, Option.none_bind]
    next => simp
    next s1 =>
    cases h4 : parseUInt U32_MAX s1 <;> simp only [Option.some_bind, Option.none_bind]
    next => simp
    next n1 =>
    cases h5 : hmGet fields "output_tokens" <;> simp only [Option.some_bind, Option.none_bind]
    next => simp
    next s2 =>
    cases h6 : parseUInt U32_MAX s2 <;> simp only [Option.some_bind, Option.none_bind]
    next => simp
    next n2 =>
    cases h7 : hmGet fields "response_time_ms" <;>
      simp only [Option.some_bind, Option.none_bind]
    next => simp
    next s3 =>
    cases h8 : parseUInt U64_MAX s3 <;> simp only [Option.some_bind, Option.none_bind]
    next => simp
    next n3 =>
    cases h9 : hmGet fields "timestamp" <;> simp only [Option.some_bind, Option.none_bind]
    next => simp
    next s4 =>
    cases h10 : parseUInt U64_MAX s4 <;> simp only [Option.some_bind, Option.none_bind]
    next => simp
    next n4 =>
    refine ⟨by simp, ?_⟩
    intro r hr
    simp only [Option.some.injEq] at hr
    subst hr
    exact ⟨rfl, rfl, ⟨s1, rfl, h4⟩, ⟨s2, rfl, h6⟩, ⟨s3, rfl, h8⟩, ⟨s4, rfl, h10⟩⟩

/-- The spec's telemetry round-trip entry. -/
def sampleEntry : List (String × String) :=
  [("key", "test-key"), ("model", "gpt-4"), ("input_tokens", "100"),
   ("output_tokens", "50"), ("response_time_ms", "250"), ("timestamp", "1700000000000")]

/-- Witness for C8: the complete sample entry parses, and both halves
of the characterization hold on it. -/
theorem parse_entry_validation_witness :
    (parse_entry sampleEntry = none ↔ specRejects sampleEntry = true)
    ∧ (hmGet sampleEntry "key" = some "test-key"
      ∧ hmGet sampleEntry "model" = some "gpt-4"
      ∧ (∃ s, hmGet sampleEntry "input_tokens" = some s
          ∧ parseUInt U32_MAX s = some 100)
      ∧ (∃ s, hmGet sampleEntry "output_tokens" = some s
          ∧ parseUInt U32_MAX s = some 50)
      ∧ (∃ s, hmGet sampleEntry "response_time_ms" = some s
          ∧ parseUInt U64_MAX s = some 250)
      ∧ (∃ s, hmGet sampleEntry "timestamp" = some s
          ∧ parseUInt U64_MAX s = some 1700000000000)) :=
  ⟨(parse_entry_validation sampleEntry).1,
   (parse_entry_validation sampleEntry).2
     ⟨"test-key", "gpt-4", 100, 50, 250, 1700000000000⟩ (by rfl)⟩

end HyperInfer
